import Mathlib

set_option maxHeartbeats 1000000
set_option linter.unusedVariables false

namespace Wof

/-! # Shallow embedding of the WOF hierarchy scripts

The repository is a family of near-duplicate scripts.  The embedding below
covers the functions the claims cite:

* `part_001` (hybrid V3): `parseRecord`, `PLACETYPE_CHAIN`, `buildGraph`,
  `createTree` (the walker with a visited-id set), `sanitize` (strip variant);
* `wof_create_folders.js`: `sanitize` (strip variant), `parseRecord`,
  `buildTree`, `createTree` (the walker WITHOUT a visited set);
* `part_000`: `sanitizeSegment`, `getPropVariants`, `pickBestName`,
  the per-document normalizer inside `readAllWofFiles`, `buildTree`, and the
  country-root fallback in `main`;
* `part_002`: `buildTree` (same code as the one in wof_create_folders.js).

JS records are identified by their position (index) in the input list, which
models JS object identity; `Map` is modelled by "the value stored under a key
is the last record with that id" plus first-occurrence key order for
`map.values()`.  Unicode NFKD normalization is a JS library call, not code of
this repository; it is threaded through as an explicit function parameter
`nfkd` (the real normalizer is the identity on the ASCII names used in the
concrete scenarios). -/

/-! ## JavaScript value model -/

/-- JavaScript property values occurring in WOF documents: strings, integer
numbers and null.  A property that is absent (undefined) is `Option.none` at
use sites. -/
inductive JVal where
  | str : String → JVal
  | num : Int → JVal
  | jnull : JVal
deriving DecidableEq, Repr

/-- JS truthiness of a present value ("" and 0 and null are falsy). -/
def JVal.truthy : JVal → Bool
  | .str s => s != ""
  | .num n => n != 0
  | .jnull => false

/-- JS truthiness of a possibly-undefined value. -/
def jsTruthy : Option JVal → Bool
  | none => false
  | some v => v.truthy

/-- JS String() conversion of a possibly-undefined value:
String(undefined) is the literal string "undefined". -/
def jsToString : Option JVal → String
  | none => "undefined"
  | some (.str s) => s
  | some (.num n) => toString n
  | some .jnull => "null"

/-- JS `a || d` for a possibly-undefined `a` and a default value `d`. -/
def jsOrV (a : Option JVal) (d : JVal) : JVal :=
  match a with
  | some v => if v.truthy then v else d
  | none => d

/-- JS `a || b` where both sides may be null/undefined. -/
def jsOr (a b : Option JVal) : Option JVal := if jsTruthy a then a else b

/-- Property lookup on a JS object (association list); `none` = undefined. -/
def jlookup (props : List (String × JVal)) (k : String) : Option JVal :=
  (props.find? (fun kv => kv.1 == k)).map (fun kv => kv.2)

/-- JS numbers as Map keys: integers or NaN (JS Map key equality is
SameValueZero, under which NaN equals NaN, so plain equality is faithful). -/
inductive JNum where
  | int : Int → JNum
  | nan : JNum
deriving DecidableEq, Repr

/-- JS truthiness of a number (0 and NaN are falsy). -/
def JNum.truthy : JNum → Bool
  | .int n => n != 0
  | .nan => false

/-- Decimal digit run to a natural number (accumulator form). -/
def decDigitsAux : List Char → Nat → Option Nat
  | [], acc => some acc
  | c :: cs, acc =>
    if c.isDigit then decDigitsAux cs (acc * 10 + (c.toNat - 48)) else none

/-- JS whitespace (the set matched by the regex \s and trimmed by trim):
space, tab, LF, VT, FF, CR, NBSP, Ogham space, the U+2000 block, line and
paragraph separators, narrow NBSP, math space, ideographic space, BOM. -/
def isJsWs (c : Char) : Bool :=
  c == ' ' || c == '\t' || c == '\n' || c == '\r' ||
  c.val == 11 || c.val == 12 || c.val == 0xa0 || c.val == 0x1680 ||
  (0x2000 ≤ c.val && c.val ≤ 0x200a) || c.val == 0x2028 || c.val == 0x2029 ||
  c.val == 0x202f || c.val == 0x205f || c.val == 0x3000 || c.val == 0xfeff

/-- JS Number() conversion of a string, for decimal integer contents: the
string is trimmed, "" maps to 0, an optional sign followed by decimal digits
maps to the signed value, anything else to NaN.  (Hex/float/exponent forms of
Number() are not modelled; no claim exercises them.) -/
def jsStrToNumber (s : String) : JNum :=
  let t := ((s.data.dropWhile isJsWs).reverse.dropWhile isJsWs).reverse
  match t with
  | [] => .int 0
  | '+' :: rest =>
    match rest, decDigitsAux rest 0 with
    | _ :: _, some n => .int n
    | _, _ => .nan
  | '-' :: rest =>
    match rest, decDigitsAux rest 0 with
    | _ :: _, some n => .int (-(n : Int))
    | _, _ => .nan
  | _ =>
    match decDigitsAux t 0 with
    | some n => .int n
    | none => .nan

/-- JS Number() on a present value. -/
def jsToNumberV : JVal → JNum
  | .num n => .int n
  | .str s => jsStrToNumber s
  | .jnull => .int 0

/-- JS Number() on a possibly-undefined value (Number(undefined) is NaN). -/
def jsToNumber : Option JVal → JNum
  | none => .nan
  | some v => jsToNumberV v

/-! ## Canonical records (the shape produced by parseRecord in hybrid V3)

The build/walk claims quantify over sequences of canonical records
`{id, name, placetype, parent}` with string fields ("" = missing parent). -/

/-- A canonical place record; a record is identified by its index in the
input list (JS object identity). -/
structure Rec where
  id : String
  name : String
  placetype : String
  parent : String
deriving DecidableEq, Repr

instance : Inhabited Rec := ⟨⟨"", "", "", ""⟩⟩

/-- Field access by index (out-of-range indices give the default record,
whose id is ""; the builders only ever produce in-range indices). -/
def rid (recs : List Rec) (i : Nat) : String := (recs.getD i default).id

def rname (recs : List Rec) (i : Nat) : String := (recs.getD i default).name

def rpt (recs : List Rec) (i : Nat) : String := (recs.getD i default).placetype

def rparent (recs : List Rec) (i : Nat) : String := (recs.getD i default).parent

/-! ## The id map

`records.forEach(r => map.set(r.id, r))` stores, under each id, the LAST
record with that id; `map.values()` iterates in first-occurrence key order. -/

/-- Scan indices n-1, n-2, ..., 0 for the topmost record whose id is k. -/
def lastIdxAux (recs : List Rec) (k : String) : Nat → Option Nat
  | 0 => none
  | n + 1 => if rid recs n == k then some n else lastIdxAux recs k n

/-- `map.get(k)` after the indexing pass: the last record whose id is k. -/
def lastIdxOf (recs : List Rec) (k : String) : Option Nat :=
  lastIdxAux recs k recs.length

/-- Keys in first-occurrence order (JS Map key insertion order). -/
def firstKeysAux : List String → List String → List String
  | [], _ => []
  | k :: ks, seen =>
    if seen.contains k then firstKeysAux ks seen
    else k :: firstKeysAux ks (k :: seen)

/-- `[...map.values()]`: for each key in first-occurrence order, the index of
the last record with that id. -/
def mapValues (recs : List Rec) : List Nat :=
  (firstKeysAux (recs.map Rec.id) []).filterMap (lastIdxOf recs)

/-! ## buildGraph (hybrid V3) and buildTree (wof_create_folders.js, part_002) -/

/-- The PLACETYPE_CHAIN transition table of hybrid V3. -/
def PLACETYPE_CHAIN : String → Option (List String) := fun pt =>
  if pt == "country" then some ["region"]
  else if pt == "region" then some ["locality"]
  else if pt == "locality" then some ["neighbourhood"]
  else if pt == "neighbourhood" then some ["microhood"]
  else none

/-- The allow-set of hybrid V3: the keys of PLACETYPE_CHAIN. -/
def ALLOWED001 : List String := ["country", "region", "locality", "neighbourhood"]

/-- buildGraph's transition test: the chain entry for the parent's placetype
exists and lists the child's placetype. -/
def permitted (chain : String → Option (List String)) (recs : List Rec)
    (p j : Nat) : Bool :=
  match chain (rpt recs p) with
  | none => false
  | some kids => kids.contains (rpt recs j)

/-- buildGraph's linking condition for record j and map entry p: j's parent id
resolves (in the final map) to p and the placetype transition is permitted. -/
def linksTo (chain : String → Option (List String)) (recs : List Rec)
    (p j : Nat) : Bool :=
  lastIdxOf recs (rparent recs j) == some p && permitted chain recs p j

/-- The children sequence of map entry p after buildGraph's linking pass: the
records pushed onto p, in input order (each push appends). -/
def childrenOf (chain : String → Option (List String)) (recs : List Rec)
    (p : Nat) : List Nat :=
  (List.range recs.length).filter (fun j => linksTo chain recs p j)

/-- buildGraph's result: the map values whose placetype is "country". -/
def buildGraphRoots (chain : String → Option (List String)) (recs : List Rec) :
    List Nat :=
  (mapValues recs).filter (fun i => rpt recs i == "country")

/-- buildTree's linking condition (wof_create_folders.js and part_002): the
parent id resolves in the map; Unlike buildGraph there is no transition test. -/
def btLinksTo (recs : List Rec) (p j : Nat) : Bool :=
  lastIdxOf recs (rparent recs j) == some p

/-- The children sequence of map entry p after buildTree's linking pass. -/
def btChildren (recs : List Rec) (p : Nat) : List Nat :=
  (List.range recs.length).filter (fun j => btLinksTo recs p j)

/-- buildTree's result: the map values whose placetype is "country". -/
def btRoots (recs : List Rec) : List Nat :=
  (mapValues recs).filter (fun i => rpt recs i == "country")

/-! ## Path-segment sanitizers

Four sanitizers exist in the sources.  All start with NFKD normalization (the
abstract parameter `nfkd`); they differ afterwards:

* part_000 `sanitizeSegment`: "unnamed" for a falsy input, then replace
  each of / : * ? " < > | \ ampersand-quote # % by _, collapse whitespace
  runs to _, collapse _ runs, trim;
* hybrid V3 / wof_create_folders.js / part_002 `sanitize`: DELETE every
  character that is not word/whitespace/hyphen, collapse whitespace runs to
  _, trim (hybrid V3 additionally substitutes "unnamed" for a falsy input
  BEFORE the pipeline; the wof_create_folders.js one has no fallback). -/

/-- The twelve characters the part_000 sanitizer replaces by _
(slash, colon, star, question mark, double quote, less-than, greater-than,
pipe, backslash, apostrophe, hash, percent). -/
def illegalSegChars : List Char :=
  ['/', ':', '*', '?', Char.ofNat 34, '<', '>', '|', Char.ofNat 92,
   Char.ofNat 39, '#', '%']

/-- Word characters of the JS regex class backslash-w: letters, digits, _. -/
def isWordChar (c : Char) : Bool :=
  ('a' ≤ c && c ≤ 'z') || ('A' ≤ c && c ≤ 'Z') || ('0' ≤ c && c ≤ '9') || c == '_'

/-- Replace every maximal run of characters satisfying p by the single
character rep (the JS replace of a one-or-more character-class regex). -/
def collapseRuns (p : Char → Bool) (rep : Char) : List Char → List Char
  | [] => []
  | [c] => if p c then [rep] else [c]
  | c :: d :: cs =>
    if p c then
      if p d then collapseRuns p rep (d :: cs)
      else rep :: collapseRuns p rep (d :: cs)
    else c :: collapseRuns p rep (d :: cs)

/-- JS String.prototype.trim on a character list. -/
def trimWsChars (l : List Char) : List Char :=
  ((l.dropWhile isJsWs).reverse.dropWhile isJsWs).reverse

/-- The character pipeline of part_000 sanitizeSegment after normalization:
replace illegal characters by _, collapse whitespace runs to _, collapse _
runs to one _, trim. -/
def segPipeline (l : List Char) : List Char :=
  trimWsChars (collapseRuns (fun c => c == '_') '_'
    (collapseRuns isJsWs '_'
      (l.map (fun c => if illegalSegChars.contains c then '_' else c))))

/-- part_000 sanitizeSegment: "unnamed" for a falsy (empty) input string,
otherwise NFKD followed by the replacement pipeline. -/
def sanitizeSegment (nfkd : String → String) (name : String) : String :=
  if name == "" then "unnamed"
  else ⟨segPipeline (nfkd name).data⟩

/-- The character pipeline of the strip-variant sanitize: delete every
character that is neither word, whitespace nor hyphen, collapse whitespace
runs to _, trim. -/
def stripPipeline (l : List Char) : List Char :=
  trimWsChars (collapseRuns isJsWs '_'
    (l.filter (fun c => isWordChar c || isJsWs c || c == '-')))

/-- hybrid V3 sanitize: (name or-else "unnamed"), NFKD, strip pipeline. -/
def sanitize001 (nfkd : String → String) (name : String) : String :=
  ⟨stripPipeline (nfkd (if name == "" then "unnamed" else name)).data⟩

/-- wof_create_folders.js sanitize: NFKD, strip pipeline; no fallback. -/
def sanitizeRepo (nfkd : String → String) (name : String) : String :=
  ⟨stripPipeline (nfkd name).data⟩

/-- The sanitizer exactly as claim C4 words it: NFKD, replace each illegal
character by _, collapse whitespace runs to a single _, collapse _ runs to
one, trim, and fall back to "unnamed" whenever the RESULT would otherwise be
empty (the source function tests the input instead; the refinement theorem
shows the two agree). -/
def sanitizeSpecC4 (nfkd : String → String) (name : String) : String :=
  if segPipeline (nfkd name).data == [] then "unnamed"
  else ⟨segPipeline (nfkd name).data⟩

/-! ## The walkers

`createTree` in hybrid V3 carries a visited-id set; `createTree` in
wof_create_folders.js does not.  Both are depth-first pre-order walks that
emit a folder event per visited node and, for a node with no children, one
leaf event.  The embedding linearizes the recursion as a worklist of pending
(node, basePath) pairs (children are prepended, so the order of events is
exactly that of the JS recursion, with the visited set threaded left to
right as the shared JS Set is).  The walk is structural in an explicit fuel;
the Boolean result is false iff fuel ran out before the worklist emptied
(the repository walker without the visited set really can diverge, so a
total direct embedding of it does not exist). -/

/-- Folder / leaf events, tagged with the emitted path and the visited node
(by index), matching the spec's (path, node) events. -/
inductive Event where
  | folder : String → Nat → Event
  | leaf : String → Nat → Event
deriving DecidableEq, Repr

/-- hybrid V3 createTree (the walker WITH the visited-id set). -/
def walk001 (nfkd : String → String) (recs : List Rec) (ch : Nat → List Nat) :
    Nat → List (Nat × String) → List String → List Event × Bool
  | _, [], _ => ([], true)
  | 0, _ :: _, _ => ([], false)
  | f + 1, (i, base) :: rest, visited =>
    if visited.contains (rid recs i) then walk001 nfkd recs ch f rest visited
    else
      let path := base ++ "/" ++ sanitize001 nfkd (rname recs i)
      let visited2 := rid recs i :: visited
      if ch i == [] then
        let r := walk001 nfkd recs ch f rest visited2
        (Event.folder path i :: Event.leaf path i :: r.1, r.2)
      else
        let r := walk001 nfkd recs ch f
          ((ch i).map (fun c => (c, path)) ++ rest) visited2
        (Event.folder path i :: r.1, r.2)

/-- wof_create_folders.js createTree (NO visited set; the same walk
otherwise, with the repository's strip-variant sanitize; path.join on
nonempty segments is slash concatenation). -/
def walkRepo (nfkd : String → String) (recs : List Rec) (ch : Nat → List Nat) :
    Nat → List (Nat × String) → List Event × Bool
  | _, [] => ([], true)
  | 0, _ :: _ => ([], false)
  | f + 1, (i, base) :: rest =>
    let path := base ++ "/" ++ sanitizeRepo nfkd (rname recs i)
    if ch i == [] then
      let r := walkRepo nfkd recs ch f rest
      (Event.folder path i :: Event.leaf path i :: r.1, r.2)
    else
      let r := walkRepo nfkd recs ch f ((ch i).map (fun c => (c, path)) ++ rest)
      (Event.folder path i :: r.1, r.2)

/-- Every id the walk can ever test or insert: "" (the id of the default
record returned for an out-of-range index) and the ids of the records. -/
def univIds (recs : List Rec) : List String := "" :: recs.map Rec.id

/-- Fuel that always suffices for the visited-set walker started on one
root (proved below): 1 + (number of ids + 1) * (number of records + 1). -/
def walkBound (recs : List Rec) : Nat :=
  1 + (univIds recs).length * (recs.length + 1)

/-- One hybrid V3 walk invocation: createTree(root, base) with a fresh
visited set, run with sufficient fuel; the event sequence it emits. -/
def createTree001 (nfkd : String → String) (recs : List Rec)
    (ch : Nat → List Nat) (root : Nat) (base : String) : List Event :=
  (walk001 nfkd recs ch (walkBound recs) [(root, base)] []).1

/-- Event predicates used by the counting claims. -/
def isFolderAt (i : Nat) : Event → Bool
  | .folder _ j => j == i
  | _ => false

def isLeafAt (i : Nat) : Event → Bool
  | .leaf _ j => j == i
  | _ => false

def isFolderOf (recs : List Rec) (s : String) : Event → Bool
  | .folder _ j => rid recs j == s
  | _ => false

def isLeafOf (recs : List Rec) (s : String) : Event → Bool
  | .leaf _ j => rid recs j == s
  | _ => false

/-! ## Termination of the visited-set walker

Every fresh visit inserts into the visited set an id drawn from the finite
universe `univIds recs`, so the number of ids not yet visited strictly
decreases; the worklist grows by at most `recs.length` entries per fresh
visit.  Hence `walkBound` fuel always completes the walk. -/

/-- The number of universe ids not yet in the visited set. -/
def unvisited (recs : List Rec) (visited : List String) : Nat :=
  ((univIds recs).filter (fun s => !visited.contains s)).length

lemma rid_mem_univ (recs : List Rec) (i : Nat) : rid recs i ∈ univIds recs := by
  unfold rid univIds List.getD
  cases h : recs.get? i with
  | none => exact List.mem_cons_self _ _
  | some r =>
    simp only [Option.getD_some]
    exact List.mem_cons_of_mem _ (List.mem_map_of_mem Rec.id (List.get?_mem h))

lemma length_filter_le_of_imp {α : Type} (p q : α → Bool) (l : List α)
    (h : ∀ x, q x = true → p x = true) :
    (l.filter q).length ≤ (l.filter p).length := by
  induction l with
  | nil => simp
  | cons a l ih =>
    by_cases hq : q a = true
    · have hp := h a hq
      simp [List.filter_cons, hq, hp, Nat.succ_le_succ ih]
    · simp only [Bool.not_eq_true] at hq
      by_cases hp : p a = true
      · simp only [List.filter_cons, hq, hp]
        simp only [if_true, if_false, Bool.false_eq_true]
        exact ih.trans (Nat.le_succ _)
      · simp only [Bool.not_eq_true] at hp
        simp [List.filter_cons, hq, hp, ih]

lemma length_filter_lt_of_imp {α : Type} (p q : α → Bool) (l : List α) (a : α)
    (h : ∀ x, q x = true → p x = true) (ha : a ∈ l)
    (hpa : p a = true) (hqa : q a = false) :
    (l.filter q).length < (l.filter p).length := by
  induction l with
  | nil => cases ha
  | cons x xs ih =>
    rcases List.mem_cons.mp ha with rfl | hmem
    · simp only [List.filter_cons, hpa, hqa]
      simp only [if_true, if_false, Bool.false_eq_true, List.length_cons]
      exact Nat.lt_succ_of_le (length_filter_le_of_imp p q xs h)
    · by_cases hq : q x = true
      · have hp := h x hq
        simp only [List.filter_cons, hq, hp, if_true, List.length_cons]
        exact Nat.succ_lt_succ (ih hmem)
      · simp only [Bool.not_eq_true] at hq
        by_cases hp : p x = true
        · simp only [List.filter_cons, hq, hp]
          simp only [if_true, if_false, Bool.false_eq_true, List.length_cons]
          exact (ih hmem).trans (Nat.lt_succ_self _)
        · simp only [Bool.not_eq_true] at hp
          simp only [List.filter_cons, hq, hp]
          simp only [if_false, Bool.false_eq_true]
          exact ih hmem

lemma unvisited_cons_lt (recs : List Rec) (visited : List String) (i : Nat)
    (h : visited.contains (rid recs i) = false) :
    unvisited recs (rid recs i :: visited) < unvisited recs visited := by
  have himp : ∀ x, (!(rid recs i :: visited).contains x) = true →
      (!visited.contains x) = true := by
    intro x hx
    simp only [List.contains_cons, Bool.not_eq_true', Bool.or_eq_false_iff] at hx
    simpa using hx.2
  have hpa : (!visited.contains (rid recs i)) = true := by simpa using h
  have hqa : (!(rid recs i :: visited).contains (rid recs i)) = false := by
    simp [List.contains_cons]
  exact length_filter_lt_of_imp _ _ _ (rid recs i) himp (rid_mem_univ recs i) hpa hqa

lemma fuel_arith0 (chlen restlen A B n f : Nat)
    (h1 : chlen ≤ n) (h3 : A + (n + 1) ≤ B) (h : restlen + 1 + B ≤ f + 1) :
    chlen + restlen + A ≤ f := by omega

lemma fuel_arith1 (restlen A B f : Nat) (hAB : A ≤ B)
    (h : restlen + 1 + B ≤ f + 1) : restlen + A ≤ f := by omega

/-- With fuel at least worklist length + (unvisited ids) * (records + 1),
the visited-set walk completes (the Boolean flag is true). -/
lemma walk001_enough (nfkd : String → String) (recs : List Rec)
    (ch : Nat → List Nat) (hch : ∀ i, (ch i).length ≤ recs.length) :
    ∀ f todo visited,
      todo.length + unvisited recs visited * (recs.length + 1) ≤ f →
      (walk001 nfkd recs ch f todo visited).2 = true := by
  intro f
  induction f with
  | zero =>
    intro todo visited h
    cases todo with
    | nil => simp [walk001]
    | cons t ts => simp at h
  | succ f ih =>
    intro todo visited h
    match todo with
    | [] => simp [walk001]
    | (i, base) :: rest =>
      by_cases hv : visited.contains (rid recs i) = true
      · simp only [walk001, hv, if_true]
        apply ih rest visited
        simp only [List.length_cons] at h
        omega
      · simp only [Bool.not_eq_true] at hv
        have hu : unvisited recs (rid recs i :: visited) + 1 ≤ unvisited recs visited :=
          unvisited_cons_lt recs visited i hv

        simp only [walk001, hv, Bool.false_eq_true, if_false]
        by_cases hc : ch i == []
        · simp only [hc, if_true]
          apply ih rest (rid recs i :: visited)
          apply fuel_arith1 rest.length _ (unvisited recs visited * (recs.length + 1)) f
          · exact Nat.mul_le_mul_right _ (Nat.le_of_succ_le hu)
          · simpa using h
        · simp only [hc, Bool.false_eq_true, if_false]
          apply ih _ (rid recs i :: visited)
          rw [List.length_append, List.length_map]
          apply fuel_arith0 (ch i).length rest.length _
            (unvisited recs visited * (recs.length + 1)) recs.length f (hch i)
          · calc unvisited recs (rid recs i :: visited) * (recs.length + 1) + (recs.length + 1)
                = (unvisited recs (rid recs i :: visited) + 1) * (recs.length + 1) := by ring
              _ ≤ unvisited recs visited * (recs.length + 1) :=
                Nat.mul_le_mul_right _ hu
          · simpa using h

lemma childrenOf_length_le (chain : String → Option (List String))
    (recs : List Rec) (i : Nat) :
    (childrenOf chain recs i).length ≤ recs.length := by
  have := List.length_filter_le (fun j => linksTo chain recs i j) (List.range recs.length)
  simpa [childrenOf] using this

lemma unvisited_nil (recs : List Rec) :
    unvisited recs [] = (univIds recs).length := by
  simp [unvisited]

/-! ## Event counting for the visited-set walker

A walk never emits an event for an id already in the visited set, hence each
id gets at most one folder and at most one leaf event, and a leaf event is
emitted for a walked node exactly when its children sequence is empty. -/

/-- An id already in the visited set gets no event at all. -/
lemma walk001_skip (nfkd : String → String) (recs : List Rec)
    (ch : Nat → List Nat) :
    ∀ f todo visited s, visited.contains s = true →
      (walk001 nfkd recs ch f todo visited).1.countP (isFolderOf recs s) = 0 ∧
      (walk001 nfkd recs ch f todo visited).1.countP (isLeafOf recs s) = 0 := by
  intro f
  induction f with
  | zero =>
    intro todo visited s hv
    cases todo <;> simp [walk001]
  | succ f ih =>
    intro todo visited s hv
    match todo with
    | [] => simp [walk001]
    | (i, base) :: rest =>
      by_cases hvi : visited.contains (rid recs i) = true
      · simp only [walk001, hvi, if_true]
        exact ih rest visited s hv
      · simp only [Bool.not_eq_true] at hvi
        have hne : (rid recs i == s) = false := by
          cases heq : rid recs i == s with
          | false => rfl
          | true =>
            rw [eq_of_beq heq] at hvi
            rw [hvi] at hv
            cases hv
        have hsmem : s ∈ visited := by simpa using hv
        have hv2 : (rid recs i :: visited).contains s = true := by
          simp only [List.contains_cons, hv, Bool.or_true]
        simp only [walk001, hvi, Bool.false_eq_true, if_false]
        by_cases hc : ch i == []
        · simp only [hc, if_true, List.countP_cons, isFolderOf, isLeafOf, hne]
          have := ih rest (rid recs i :: visited) s hv2
          simp only [this.1, this.2]
          simp
        · simp only [hc, Bool.false_eq_true, if_false, List.countP_cons,
            isFolderOf, isLeafOf, hne]
          have := ih ((ch i).map (fun c => (c, base ++ "/" ++
            sanitize001 nfkd (rname recs i))) ++ rest) (rid recs i :: visited) s hv2
          simp only [this.1, this.2]
          simp

/-- Each id gets at most one folder event and at most one leaf event per
walk invocation (counting 1 for an id already visited at entry). -/
lemma walk001_once (nfkd : String → String) (recs : List Rec)
    (ch : Nat → List Nat) :
    ∀ f todo visited s,
      (walk001 nfkd recs ch f todo visited).1.countP (isFolderOf recs s) +
        (if visited.contains s then 1 else 0) ≤ 1 ∧
      (walk001 nfkd recs ch f todo visited).1.countP (isLeafOf recs s) +
        (if visited.contains s then 1 else 0) ≤ 1 := by
  intro f
  induction f with
  | zero =>
    intro todo visited s
    cases todo <;> simp [walk001] <;> split <;> simp
  | succ f ih =>
    intro todo visited s
    match todo with
    | [] =>
      simp only [walk001, List.countP_nil, Nat.zero_add]
      constructor <;> split <;> simp
    | (i, base) :: rest =>
      by_cases hvi : visited.contains (rid recs i) = true
      · simp only [walk001, hvi, if_true]
        exact ih rest visited s
      · simp only [Bool.not_eq_true] at hvi
        simp only [walk001, hvi, Bool.false_eq_true, if_false]
        by_cases heq : (rid recs i == s) = true
        · -- the popped node has the id s: it emits, later re-emissions are
          -- blocked by the visited set via walk001_skip
          have hs2 : (rid recs i :: visited).contains s = true := by
            rw [List.contains_cons]
            have : (s == rid recs i) = true := by
              rw [eq_of_beq heq, beq_self_eq_true]
            rw [this, Bool.true_or]
          by_cases hc : ch i == []
          · simp only [hc, if_true, List.countP_cons, isFolderOf, isLeafOf, heq]
            have hz := walk001_skip nfkd recs ch f rest (rid recs i :: visited) s hs2
            rw [eq_of_beq heq] at hvi
            have hvi2 : s ∉ visited := by simpa using hvi
            simp [hz.1, hz.2, hvi2]
          · simp only [hc, Bool.false_eq_true, if_false, List.countP_cons,
              isFolderOf, isLeafOf, heq]
            have hz := walk001_skip nfkd recs ch f ((ch i).map (fun c => (c, base ++ "/" ++
              sanitize001 nfkd (rname recs i))) ++ rest) (rid recs i :: visited) s hs2
            rw [eq_of_beq heq] at hvi
            have hvi2 : s ∉ visited := by simpa using hvi
            simp [hz.1, hz.2, hvi2]
        · simp only [Bool.not_eq_true] at heq
          have heq2 : (s == rid recs i) = false := by
            cases h2 : s == rid recs i with
            | false => rfl
            | true => rw [eq_of_beq h2, beq_self_eq_true] at heq; cases heq
          have hs2 : (rid recs i :: visited).contains s = visited.contains s := by
            rw [List.contains_cons, heq2, Bool.false_or]
          by_cases hc : ch i == []
          · simp only [hc, if_true, List.countP_cons, isFolderOf, isLeafOf, heq]
            have := ih rest (rid recs i :: visited) s
            rw [hs2] at this
            simpa using this
          · simp only [hc, Bool.false_eq_true, if_false, List.countP_cons,
              isFolderOf, isLeafOf, heq]
            have := ih ((ch i).map (fun c => (c, base ++ "/" ++
              sanitize001 nfkd (rname recs i))) ++ rest) (rid recs i :: visited) s
            rw [hs2] at this
            simpa using this

lemma countP_le_of_imp {α : Type} (p q : α → Bool) (l : List α)
    (h : ∀ a, p a = true → q a = true) :
    l.countP p ≤ l.countP q := by
  induction l with
  | nil => simp
  | cons a l ih =>
    by_cases hp : p a = true
    · have hq := h a hp
      simp [List.countP_cons, hp, hq, Nat.succ_le_succ ih]
    · simp only [Bool.not_eq_true] at hp
      by_cases hq : q a = true
      · simp only [List.countP_cons, hp, hq]
        simp only [if_true, if_pos rfl]
        simp only [Bool.false_eq_true, if_false, Nat.add_zero]
        exact ih.trans (Nat.le_succ _)
      · simp only [Bool.not_eq_true] at hq
        simp [List.countP_cons, hp, hq, ih]

lemma isFolderAt_imp_isFolderOf (recs : List Rec) (i : Nat) :
    ∀ e, isFolderAt i e = true → isFolderOf recs (rid recs i) e = true := by
  intro e he
  cases e with
  | folder p j =>
    simp only [isFolderAt] at he
    simp only [isFolderOf, eq_of_beq he, beq_self_eq_true]
  | leaf p j => simp [isFolderAt] at he

lemma isLeafAt_imp_isLeafOf (recs : List Rec) (i : Nat) :
    ∀ e, isLeafAt i e = true → isLeafOf recs (rid recs i) e = true := by
  intro e he
  cases e with
  | leaf p j =>
    simp only [isLeafAt] at he
    simp only [isLeafOf, eq_of_beq he, beq_self_eq_true]
  | folder p j => simp [isLeafAt] at he

/-- A node whose id is already visited gets no folder/leaf event by index
either. -/
lemma walk001_skip_idx (nfkd : String → String) (recs : List Rec)
    (ch : Nat → List Nat) (f : Nat) (todo : List (Nat × String))
    (visited : List String) (i : Nat)
    (hv : visited.contains (rid recs i) = true) :
    (walk001 nfkd recs ch f todo visited).1.countP (isFolderAt i) = 0 ∧
    (walk001 nfkd recs ch f todo visited).1.countP (isLeafAt i) = 0 := by
  have hz := walk001_skip nfkd recs ch f todo visited (rid recs i) hv
  constructor
  · have := countP_le_of_imp (isFolderAt i) (isFolderOf recs (rid recs i))
      (walk001 nfkd recs ch f todo visited).1 (isFolderAt_imp_isFolderOf recs i)
    omega
  · have := countP_le_of_imp (isLeafAt i) (isLeafOf recs (rid recs i))
      (walk001 nfkd recs ch f todo visited).1 (isLeafAt_imp_isLeafOf recs i)
    omega

/-- Per walked node: the walk emits one leaf event exactly when the node's
children sequence is empty, paired with its (single) folder event. -/
lemma walk001_pair (nfkd : String → String) (recs : List Rec)
    (ch : Nat → List Nat) :
    ∀ f todo visited i,
      (walk001 nfkd recs ch f todo visited).1.countP (isLeafAt i) =
        (walk001 nfkd recs ch f todo visited).1.countP (isFolderAt i) *
          (if ch i = [] then 1 else 0) := by
  intro f
  induction f with
  | zero =>
    intro todo visited i
    cases todo <;> simp [walk001]
  | succ f ih =>
    intro todo visited i
    match todo with
    | [] => simp [walk001]
    | (i0, base) :: rest =>
      by_cases hvi : visited.contains (rid recs i0) = true
      · simp only [walk001, hvi, if_true]
        exact ih rest visited i
      · simp only [Bool.not_eq_true] at hvi
        simp only [walk001, hvi, Bool.false_eq_true, if_false]
        have hv2 : (rid recs i0 :: visited).contains (rid recs i0) = true := by
          rw [List.contains_cons, beq_self_eq_true, Bool.true_or]
        by_cases hii : (i0 == i) = true
        · -- the popped node is the node under count
          have hie : i0 = i := eq_of_beq hii
          subst hie
          by_cases hc : ch i0 == []
          · have hce : ch i0 = [] := eq_of_beq hc
            simp only [hc, if_true, List.countP_cons, isFolderAt, isLeafAt,
              beq_self_eq_true]
            have hz := walk001_skip_idx nfkd recs ch f rest
              (rid recs i0 :: visited) i0 hv2
            simp [hz.1, hz.2, hce]
          · have hce : ¬ ch i0 = [] := by
              intro hh
              rw [hh] at hc
              simp at hc
            simp only [hc, Bool.false_eq_true, if_false, List.countP_cons,
              isFolderAt, isLeafAt, beq_self_eq_true]
            have hz := walk001_skip_idx nfkd recs ch f
              ((ch i0).map (fun c => (c, base ++ "/" ++
                sanitize001 nfkd (rname recs i0))) ++ rest)
              (rid recs i0 :: visited) i0 hv2
            simp [hz.1, hz.2, hce]
        · -- a different node: the emitted events do not count
          have hne : (i0 == i) = false := by
            cases h2 : i0 == i with
            | false => rfl
            | true => rw [h2] at hii; cases hii rfl
          by_cases hc : ch i0 == []
          · simp only [hc, if_true, List.countP_cons, isFolderAt, isLeafAt, hne]
            have := ih rest (rid recs i0 :: visited) i
            simpa using this
          · simp only [hc, Bool.false_eq_true, if_false, List.countP_cons,
              isFolderAt, isLeafAt, hne]
            have := ih ((ch i0).map (fun c => (c, base ++ "/" ++
              sanitize001 nfkd (rname recs i0))) ++ rest) (rid recs i0 :: visited) i
            simpa using this

/-! ## parseRecord (hybrid V3 and wof_create_folders.js)

Both parsers test only the placetype; they never test id or name.  A record
for a document with no wof:id therefore carries the literal id "undefined"
(String(undefined)) and possibly a null name. -/

/-- Output of the hybrid V3 parseRecord (name is the raw wof:name value,
which may be absent). -/
structure P1Rec where
  id : String
  name : Option JVal
  placetype : String
  parent : String
deriving DecidableEq, Repr

/-- hybrid V3 parseRecord, with the allow-set as a parameter (the script
fixes it to the keys of PLACETYPE_CHAIN).  The argument is the document's
properties object, or none when the document has none (obj?.properties). -/
def parseRecord001 (allowed : List String)
    (doc : Option (List (String × JVal))) : Option P1Rec :=
  match doc with
  | none => none
  | some props =>
    match jlookup props "wof:placetype" with
    | some (.str pt) =>
      if allowed.contains pt then
        some { id := jsToString (jlookup props "wof:id"),
               name := jlookup props "wof:name",
               placetype := pt,
               parent := jsToString (some (jsOrV (jlookup props "wof:parent_id")
                 (JVal.str ""))) }
      else none
    | _ => none

/-- Output of the wof_create_folders.js parseRecord
(name is wof:name or-else null). -/
structure RepoRec where
  id : String
  name : Option JVal
  placetype : String
  parent : String
deriving DecidableEq, Repr

/-- The placetype allow-list of wof_create_folders.js parseRecord. -/
def repoAllowedPts : List String :=
  ["country", "region", "locality", "neighbourhood", "microhood"]

/-- wof_create_folders.js parseRecord on a document's properties
(obj.properties or-else the empty object): reject iff the placetype is not in
the allow-list; id and parent are String()-converted, name is
wof:name or-else null. -/
def repoParseRecord (props : List (String × JVal)) : Option RepoRec :=
  match jlookup props "wof:placetype" with
  | some (.str pt) =>
    if repoAllowedPts.contains pt then
      some { id := jsToString (jlookup props "wof:id"),
             name := jsOr (jlookup props "wof:name") none,
             placetype := pt,
             parent := jsToString (some (jsOrV (jlookup props "wof:parent_id")
               (JVal.str ""))) }
    else none
  | _ => none

/-! ## part_000: the reader, its numeric id map, and the root fallback -/

/-- A node of part_000's reader: ids are canonicalized with Number(), the
parent is Number(parent) when the raw parent is truthy and null otherwise,
placetype is the raw (possibly absent) value, name the picked raw name. -/
structure P0Node where
  id : JNum
  parent : Option JNum
  placetype : Option JVal
  name : JVal
deriving DecidableEq, Repr

instance : Inhabited P0Node := ⟨⟨.int 0, none, none, .jnull⟩⟩

/-- part_000 getPropVariants: the first PRESENT key wins (even when its
value is falsy). -/
def getPropVariants (props : List (String × JVal)) : List String → Option JVal
  | [] => none
  | k :: ks =>
    match jlookup props k with
    | some v => some v
    | none => getPropVariants props ks

/-- part_000 pickBestName: the first TRUTHY value among name, name:en,
wof:name, geom_name, label; null (none) otherwise. -/
def pickBestName (props : List (String × JVal)) : Option JVal :=
  jsOr (jlookup props "name") (jsOr (jlookup props "name:en")
    (jsOr (jlookup props "wof:name") (jsOr (jlookup props "geom_name")
      (jsOr (jlookup props "label") none))))

def p0IdKeys : List String := ["wof:id", "wof_id", "id", "id:wof"]

def p0ParentKeys : List String :=
  ["wof:parent_id", "wof_parent", "parent_id", "parent"]

def p0PtKeys : List String := ["placetype", "wof:placetype"]

/-- part_000 readAllWofFiles, per-document normalization (the
FeatureCollection element branch; the Feature and bare-object branches apply
the same retention rule): push a node only when both id and name are truthy. -/
def part000Extract (props : List (String × JVal)) : Option P0Node :=
  let id := getPropVariants props p0IdKeys
  let parent := getPropVariants props p0ParentKeys
  let pt := getPropVariants props p0PtKeys
  let name := pickBestName props
  if jsTruthy id && jsTruthy name then
    some { id := jsToNumber id,
           parent := if jsTruthy parent then some (jsToNumber parent) else none,
           placetype := pt,
           name := name.getD JVal.jnull }
  else none

def p0Id (ns : List P0Node) (i : Nat) : JNum := (ns.getD i default).id

/-- part_000 buildTree's Map, keyed by the NUMERIC ids. -/
def p0LastIdxAux (ns : List P0Node) (k : JNum) : Nat → Option Nat
  | 0 => none
  | n + 1 => if p0Id ns n == k then some n else p0LastIdxAux ns k n

def p0LastIdx (ns : List P0Node) (k : JNum) : Option Nat :=
  p0LastIdxAux ns k ns.length

def p0FirstKeysAux : List JNum → List JNum → List JNum
  | [], _ => []
  | k :: ks, seen =>
    if seen.contains k then p0FirstKeysAux ks seen
    else k :: p0FirstKeysAux ks (k :: seen)

def p0MapValues (ns : List P0Node) : List Nat :=
  (p0FirstKeysAux (ns.map P0Node.id) []).filterMap (p0LastIdx ns)

/-- Truthiness of a node's parent field (null, 0 and NaN are falsy). -/
def p0ParentTruthy (ns : List P0Node) (i : Nat) : Bool :=
  match (ns.getD i default).parent with
  | some k => k.truthy
  | none => false

/-- part_000 buildTree's linking pass (it iterates the MAP's entries): map
value j attaches to map.get(j.parent) when j.parent is truthy and present. -/
def p0Children (ns : List P0Node) (p : Nat) : List Nat :=
  (p0MapValues ns).filter (fun j =>
    p0ParentTruthy ns j &&
      (match (ns.getD j default).parent with
       | some k => p0LastIdx ns k == some p
       | none => false))

/-- The country-typed map nodes (part_000 main's primary root rule). -/
def p0Countries (ns : List P0Node) : List Nat :=
  (p0MapValues ns).filter
    (fun i => (ns.getD i default).placetype == some (JVal.str "country"))

/-- part_000 main's root selection: country-typed nodes; if there are none,
fall back to the map nodes whose parent field is FALSY (note: not "whose
parent does not resolve in the map"). -/
def part000Roots (ns : List P0Node) : List Nat :=
  if p0Countries ns == [] then
    (p0MapValues ns).filter (fun i => ! p0ParentTruthy ns i)
  else p0Countries ns

/-! ## Concrete scenarios -/

/-- The three records of the end-to-end scenario (claim C1). -/
def recsC1 : List Rec :=
  [⟨"1", "Testland", "country", ""⟩,
   ⟨"2", "North", "region", "1"⟩,
   ⟨"3", "Northtown", "locality", "2"⟩]

/-- The transition table of the end-to-end scenario. -/
def chainC1 : String → Option (List String) := fun pt =>
  if pt == "country" then some ["region"]
  else if pt == "region" then some ["locality"]
  else none

/-- A two-node cycle: record A (id 1, a country) has parent id 2, record B
(id 2, a region) has parent id 1. -/
def recsCycle : List Rec :=
  [⟨"1", "A", "country", "2"⟩, ⟨"2", "B", "region", "1"⟩]

/-- A transition table that permits the two-node cycle to be linked by
buildGraph in both directions. -/
def chainCycle : String → Option (List String) := fun _ =>
  some ["country", "region"]

/-- The cycle records plus a childless locality L attached below B. -/
def recsCycleLeaf : List Rec :=
  [⟨"3", "L", "locality", "2"⟩,
   ⟨"1", "A", "country", "2"⟩,
   ⟨"2", "B", "region", "1"⟩]

/-- C3's records: a locality (id 1) and a country (id 2) whose parent is the
locality — the transition locality→country is not in PLACETYPE_CHAIN. -/
def recsC3 : List Rec :=
  [⟨"1", "L", "locality", ""⟩, ⟨"2", "C", "country", "1"⟩]

/-- A country (id 1) with a locality child (id 2): the transition
country→locality is not in PLACETYPE_CHAIN. -/
def recsC3w : List Rec :=
  [⟨"1", "X", "country", ""⟩, ⟨"2", "Y", "locality", "1"⟩]

/-- C6's part_000 nodes: two regions (no countries), node 1's parent id 999
resolves to nothing. -/
def nsC6 : List P0Node :=
  [⟨JNum.int 1, none, some (JVal.str "region"), JVal.str "A"⟩,
   ⟨JNum.int 2, some (JNum.int 999), some (JVal.str "region"), JVal.str "B"⟩]

/-- C7's parent document: the raw id is the STRING "01". -/
def propsC7p : List (String × JVal) :=
  [("wof:id", JVal.str "01"), ("name", JVal.str "P"),
   ("placetype", JVal.str "country")]

/-- C7's child document: the raw parent_id is the NUMBER 1. -/
def propsC7c : List (String × JVal) :=
  [("wof:id", JVal.num 2), ("parent_id", JVal.num 1), ("name", JVal.str "C")]

/-- The two part_000 nodes read from the C7 documents. -/
def nsC7 : List P0Node :=
  [⟨JNum.int 1, none, some (JVal.str "country"), JVal.str "P"⟩,
   ⟨JNum.int 2, some (JNum.int 1), none, JVal.str "C"⟩]

/-- A document carrying a NUMERIC id, for the C7 witness. -/
def propsC7w : List (String × JVal) :=
  [("wof:placetype", JVal.str "region"), ("wof:id", JVal.num 7),
   ("wof:name", JVal.str "X"), ("wof:parent_id", JVal.num 1)]

/-- C10's records with a forbidden transition: a country parent with two
duplicate-id locality records below it. -/
def recsC10x : List Rec :=
  [⟨"1", "P", "country", ""⟩, ⟨"2", "A1", "locality", "1"⟩,
   ⟨"2", "A2", "locality", "1"⟩]

/-- C10's records with a permitted transition: a country parent with two
duplicate-id region records below it. -/
def recsC10 : List Rec :=
  [⟨"1", "P", "country", ""⟩, ⟨"2", "A1", "region", "1"⟩,
   ⟨"2", "A2", "region", "1"⟩]

/-! ## Claim C1 -/

/-- C1: on the records
[{id 1, no parent, country, Testland}, {id 2, parent 1, region, North},
{id 3, parent 2, locality, Northtown}] with the transition table
{country: [region], region: [locality]} and root type country, buildGraph
returns exactly one root — the node with id "1" — and the walk emits folder
events for exactly the paths Testland, Testland/North, Testland/North/Northtown
(below the script's base directory "real-estate"), in that order, plus exactly
one leaf event, for Testland/North/Northtown only.  (NFKD is the identity on
these ASCII names.) -/
theorem c1_end_to_end :
    buildGraphRoots chainC1 recsC1 = [0] ∧ rid recsC1 0 = "1" ∧
    createTree001 (fun s => s) recsC1 (childrenOf chainC1 recsC1) 0
        "real-estate" =
      [Event.folder "real-estate/Testland" 0,
       Event.folder "real-estate/Testland/North" 1,
       Event.folder "real-estate/Testland/North/Northtown" 2,
       Event.leaf "real-estate/Testland/North/Northtown" 2] := by
  decide

/-! ## Claim C2 -/

/-- C2 counterexample: the createTree of wof_create_folders.js has NO
visited-id set, and on the two-node cycle (A's parent is B, B's parent is A)
the walk from the root A revisits the cycle forever: already within the first
8 steps the folder event for A's id "1" is emitted more than once, and the
walk has not finished — refuting "the walk from every root terminates and
emits events for each of A and B at most once". -/
theorem c2_counterexample :
    btRoots recsCycle = [0] ∧
    2 ≤ (walkRepo (fun s => s) recsCycle (btChildren recsCycle) 8
          [(0, "geolocations/XX")]).1.countP (isFolderOf recsCycle "1") ∧
    (walkRepo (fun s => s) recsCycle (btChildren recsCycle) 8
          [(0, "geolocations/XX")]).2 = false := by
  decide

/-- C2 amended: the hybrid V3 walker carries a visited-id set scoped to one
walk invocation; for EVERY record set and transition table (hence also for a
two-node cycle A-B), the walk from every root terminates, each id receives at
most one folder and at most one leaf event, and a node whose id is already in
the visited set is skipped entirely — no event is emitted and its subtree is
not entered.  (The wof_create_folders.js walker has no visited set and
diverges on reachable cycles, see the counterexample.) -/
theorem c2_amended (nfkd : String → String) (recs : List Rec)
    (chain : String → Option (List String)) (root : Nat) (base : String) :
    (walk001 nfkd recs (childrenOf chain recs) (walkBound recs)
        [(root, base)] []).2 = true ∧
    (∀ s, (createTree001 nfkd recs (childrenOf chain recs) root base).countP
            (isFolderOf recs s) ≤ 1 ∧
          (createTree001 nfkd recs (childrenOf chain recs) root base).countP
            (isLeafOf recs s) ≤ 1) ∧
    (∀ f todo visited s, visited.contains s = true →
        (walk001 nfkd recs (childrenOf chain recs) f todo visited).1.countP
          (isFolderOf recs s) = 0 ∧
        (walk001 nfkd recs (childrenOf chain recs) f todo visited).1.countP
          (isLeafOf recs s) = 0) := by
  refine ⟨?_, ?_, ?_⟩
  · apply walk001_enough nfkd recs _ (childrenOf_length_le chain recs)
    rw [unvisited_nil]
    simp [walkBound]
  · intro s
    have h := walk001_once nfkd recs (childrenOf chain recs)
      (walkBound recs) [(root, base)] [] s
    simp only [List.contains_nil] at h
    constructor
    · have := h.1
      simp only [createTree001]
      omega
    · have := h.2
      simp only [createTree001]
      omega
  · intro f todo visited s hv
    exact walk001_skip nfkd recs (childrenOf chain recs) f todo visited s hv

/-- Witness for C2: on the two-node cycle with a table permitting both
transitions, the visited-set walk completes, and a walk started with id "1"
already visited emits no folder event for "1". -/
theorem c2_amended_witness :
    (walk001 (fun s => s) recsCycle (childrenOf chainCycle recsCycle)
        (walkBound recsCycle) [(0, "real-estate")] []).2 = true ∧
    (walk001 (fun s => s) recsCycle (childrenOf chainCycle recsCycle) 5
        [(0, "real-estate")] ["1"]).1.countP (isFolderOf recsCycle "1") = 0 :=
  ⟨(c2_amended (fun s => s) recsCycle chainCycle 0 "real-estate").1,
   ((c2_amended (fun s => s) recsCycle chainCycle 0 "real-estate").2.2 5
      [(0, "real-estate")] ["1"] "1" (by decide)).1⟩

/-! ## Claim C8 -/

/-- C8 counterexample: in the wof_create_folders.js walker (no visited set),
on records where a childless locality L hangs below the two-node cycle A-B,
the walked node L receives a second leaf event as the cycle is re-entered
(already within 6 steps), refuting "the walker emits exactly one leaf event
for a node with zero attached children". -/
theorem c8_counterexample :
    btRoots recsCycleLeaf = [1] ∧
    btChildren recsCycleLeaf 0 = [] ∧
    2 ≤ (walkRepo (fun s => s) recsCycleLeaf (btChildren recsCycleLeaf) 6
          [(1, "geolocations/XX")]).1.countP (isLeafAt 0) := by
  decide

/-- C8 amended: in the hybrid V3 walker (the one with the visited set), every
walked node emits exactly one folder event, and exactly one leaf event if and
only if its attached children sequence is empty; a node with one or more
children gets no leaf event for itself.  (Expressed by counting: leaf events
for node i = folder events for node i times the emptiness indicator of its
children, and folder events for node i never exceed one.) -/
theorem c8_amended (nfkd : String → String) (recs : List Rec)
    (chain : String → Option (List String)) (root : Nat) (base : String)
    (i : Nat) :
    (createTree001 nfkd recs (childrenOf chain recs) root base).countP
        (isLeafAt i) =
      (createTree001 nfkd recs (childrenOf chain recs) root base).countP
          (isFolderAt i) *
        (if childrenOf chain recs i = [] then 1 else 0) ∧
    (createTree001 nfkd recs (childrenOf chain recs) root base).countP
        (isFolderAt i) ≤ 1 := by
  constructor
  · exact walk001_pair nfkd recs (childrenOf chain recs)
      (walkBound recs) [(root, base)] [] i
  · have hmono := countP_le_of_imp (isFolderAt i) (isFolderOf recs (rid recs i))
      (walk001 nfkd recs (childrenOf chain recs) (walkBound recs)
        [(root, base)] []).1 (isFolderAt_imp_isFolderOf recs i)
    have h := (walk001_once nfkd recs (childrenOf chain recs)
      (walkBound recs) [(root, base)] [] (rid recs i)).1
    simp only [List.contains_nil] at h
    simp only [createTree001]
    omega

/-! ## Claim C3 -/

lemma mem_childrenOf (chain : String → Option (List String)) (recs : List Rec)
    (p j : Nat) :
    j ∈ childrenOf chain recs p ↔
      j < recs.length ∧ linksTo chain recs p j = true := by
  simp [childrenOf, List.mem_filter, List.mem_range]

lemma mem_buildGraphRoots (chain : String → Option (List String))
    (recs : List Rec) (i : Nat) :
    i ∈ buildGraphRoots chain recs ↔
      i ∈ mapValues recs ∧ rpt recs i = "country" := by
  simp [buildGraphRoots, List.mem_filter]

/-- C3 counterexample: records [{id 1, locality L, no parent},
{id 2, country C, parent 1}] under PLACETYPE_CHAIN.  Record 1 (the country
C) has a present parent (the locality, map entry 0) and the transition
locality→country is NOT permitted — yet C appears in the built tree as a
root, refuting "a record whose parent is present but whose transition is not
permitted appears in the built tree neither as any node's child nor as a
root". -/
theorem c3_counterexample :
    lastIdxOf recsC3 (rparent recsC3 1) = some 0 ∧
    permitted PLACETYPE_CHAIN recsC3 0 1 = false ∧
    (1 : Nat) ∈ buildGraphRoots PLACETYPE_CHAIN recsC3 := by
  decide

/-- C3 amended: in buildGraph, (a) every node's children sequence contains
only records whose parent resolves to that node with a permitted
parent→child placetype transition; (b) a record whose parent is present in
the map but whose transition is not permitted is attached to no node's
children sequence; (c) it is also not a root UNLESS its own placetype is the
root type "country" — root selection looks only at the record's own
placetype, so a country-typed record with a disallowed parent transition
still appears as a root. -/
theorem c3_amended (chain : String → Option (List String)) (recs : List Rec) :
    (∀ p j, j ∈ childrenOf chain recs p →
        lastIdxOf recs (rparent recs j) = some p ∧
        permitted chain recs p j = true) ∧
    (∀ j p, lastIdxOf recs (rparent recs j) = some p →
        permitted chain recs p j = false →
        ∀ q, j ∉ childrenOf chain recs q) ∧
    (∀ j, rpt recs j ≠ "country" → j ∉ buildGraphRoots chain recs) := by
  refine ⟨?_, ?_, ?_⟩
  · intro p j hmem
    have h := ((mem_childrenOf chain recs p j).mp hmem).2
    unfold linksTo at h
    rw [Bool.and_eq_true] at h
    exact ⟨eq_of_beq h.1, h.2⟩
  · intro j p hres hperm q hmem
    have h := ((mem_childrenOf chain recs q j).mp hmem).2
    unfold linksTo at h
    rw [Bool.and_eq_true] at h
    have hq : lastIdxOf recs (rparent recs j) = some q := eq_of_beq h.1
    rw [hres] at hq
    cases hq
    rw [h.2] at hperm
    cases hperm
  · intro j hpt hmem
    exact hpt ((mem_buildGraphRoots chain recs j).mp hmem).2

/-- Witness for C3: on the end-to-end records, node 1 (North) is a child of
node 0 with a permitted transition; on the locality-under-country records, a
record with a present parent but a forbidden transition is not a child of the
parent; a non-country record is not a root. -/
theorem c3_amended_witness :
    (lastIdxOf recsC1 (rparent recsC1 1) = some 0 ∧
      permitted chainC1 recsC1 0 1 = true) ∧
    (1 : Nat) ∉ childrenOf PLACETYPE_CHAIN recsC3w 0 ∧
    (1 : Nat) ∉ buildGraphRoots PLACETYPE_CHAIN recsC3w :=
  ⟨(c3_amended chainC1 recsC1).1 0 1 (by decide),
   (c3_amended PLACETYPE_CHAIN recsC3w).2.1 1 0 (by decide) (by decide) 0,
   (c3_amended PLACETYPE_CHAIN recsC3w).2.2 1 (by decide)⟩

/-! ## Claim C4 -/

lemma collapseRuns_ne_nil (p : Char → Bool) (rep : Char) :
    ∀ l : List Char, l ≠ [] → collapseRuns p rep l ≠ [] := by
  intro l
  induction l with
  | nil => intro h; exact absurd rfl h
  | cons a l ih =>
    intro _
    cases l with
    | nil =>
      by_cases hp : p a = true
      · simp [collapseRuns, hp]
      · simp only [Bool.not_eq_true] at hp
        simp [collapseRuns, hp]
    | cons d cs =>
      by_cases hp : p a = true
      · by_cases hd : p d = true
        · simp only [collapseRuns, hp, hd, if_true]
          exact ih (by simp)
        · simp only [Bool.not_eq_true] at hd
          simp [collapseRuns, hp, hd]
      · simp only [Bool.not_eq_true] at hp
        simp [collapseRuns, hp]

lemma collapseRuns_mem (p : Char → Bool) (rep : Char) :
    ∀ l c, c ∈ collapseRuns p rep l → c = rep ∨ (c ∈ l ∧ p c = false) := by
  intro l
  induction l with
  | nil => intro c hc; simp [collapseRuns] at hc
  | cons a l ih =>
    intro c hc
    cases l with
    | nil =>
      by_cases hp : p a = true
      · simp only [collapseRuns, hp, if_true, List.mem_singleton] at hc
        exact Or.inl hc
      · simp only [Bool.not_eq_true] at hp
        simp only [collapseRuns, hp, Bool.false_eq_true, if_false,
          List.mem_singleton] at hc
        subst hc
        exact Or.inr ⟨List.mem_singleton_self _, hp⟩
    | cons d cs =>
      by_cases hp : p a = true
      · by_cases hd : p d = true
        · simp only [collapseRuns, hp, hd, if_true] at hc
          rcases ih c hc with h | ⟨h1, h2⟩
          · exact Or.inl h
          · exact Or.inr ⟨List.mem_cons_of_mem _ h1, h2⟩
        · simp only [Bool.not_eq_true] at hd
          simp only [collapseRuns, hp, hd, Bool.false_eq_true, if_false,
            if_true, List.mem_cons] at hc
          rcases hc with h | h
          · exact Or.inl h
          · rcases ih c h with h2 | ⟨h3, h4⟩
            · exact Or.inl h2
            · exact Or.inr ⟨List.mem_cons_of_mem _ h3, h4⟩
      · simp only [Bool.not_eq_true] at hp
        simp only [collapseRuns, hp, Bool.false_eq_true, if_false,
          List.mem_cons] at hc
        rcases hc with h | h
        · subst h
          exact Or.inr ⟨List.mem_cons_self _ _, hp⟩
        · rcases ih c h with h2 | ⟨h3, h4⟩
          · exact Or.inl h2
          · exact Or.inr ⟨List.mem_cons_of_mem _ h3, h4⟩

lemma dropWhile_eq_self_of_none (p : Char → Bool) (l : List Char)
    (h : ∀ c ∈ l, p c = false) : l.dropWhile p = l := by
  cases l with
  | nil => rfl
  | cons a l =>
    rw [List.dropWhile_cons]
    simp [h a (List.mem_cons_self a l)]

lemma trimWsChars_eq_self (l : List Char)
    (h : ∀ c ∈ l, isJsWs c = false) : trimWsChars l = l := by
  unfold trimWsChars
  rw [dropWhile_eq_self_of_none isJsWs l h]
  rw [dropWhile_eq_self_of_none isJsWs l.reverse
    (fun c hc => h c (List.mem_reverse.mp hc))]
  exact List.reverse_reverse l

/-- The part_000 pipeline output has no whitespace (every whitespace run was
replaced by _, and _ is not whitespace). -/
lemma segPipeline_no_ws (l : List Char) :
    ∀ c ∈ collapseRuns (fun c => c == '_') '_' (collapseRuns isJsWs '_'
      (l.map (fun c => if illegalSegChars.contains c then '_' else c))),
      isJsWs c = false := by
  intro c hc
  rcases collapseRuns_mem _ _ _ c hc with h | ⟨h1, _⟩
  · subst h; rfl
  · rcases collapseRuns_mem _ _ _ c h1 with h2 | ⟨_, h3⟩
    · subst h2; rfl
    · exact h3

lemma segPipeline_ne_nil (l : List Char) (h : l ≠ []) : segPipeline l ≠ [] := by
  unfold segPipeline
  have h1 : l.map (fun c => if illegalSegChars.contains c then '_' else c) ≠ [] := by
    intro hh
    exact h (List.map_eq_nil_iff.mp hh)
  have h2 := collapseRuns_ne_nil isJsWs '_' _ h1
  have h3 := collapseRuns_ne_nil (fun c => c == '_') '_' _ h2
  rw [trimWsChars_eq_self _ (segPipeline_no_ws l)]
  exact h3

lemma string_data_ne_nil (s : String) (h : s ≠ "") : s.data ≠ [] := by
  intro hd
  apply h
  cases s with
  | mk data => cases hd; rfl

/-- C4 counterexample: the wof_create_folders.js path-segment sanitize does
not behave as claimed: on "?" it DELETES the character and returns "" (the
claimed pipeline replaces it by _ and never returns an empty string), and on
the empty name it returns "" rather than the fallback "unnamed". -/
theorem c4_counterexample :
    sanitizeRepo (fun s => s) "?" = "" ∧
    sanitizeSpecC4 (fun s => s) "?" = "_" ∧
    sanitizeRepo (fun s => s) "" = "" := by
  decide

/-- C4 amended: part_000's sanitizeSegment behaves exactly as the claim
describes: for every name and every normalizer that maps "" to "" and
nonempty strings to nonempty strings (true of NFKD), it equals the claimed
pipeline — NFKD, replace each of the illegal characters by _, collapse
whitespace runs to a single _, collapse _ runs to one, trim, with the
fallback "unnamed" whenever the result would otherwise be empty (the code
tests the input for emptiness instead, which agrees because the pipeline
maps nonempty input to nonempty output).  The wof_create_folders.js
sanitize, by contrast, deletes non-word characters, never collapses _, and
has no fallback (see the counterexample). -/
theorem c4_amended (nfkd : String → String) (h0 : nfkd "" = "")
    (hne : ∀ s, s ≠ "" → nfkd s ≠ "") (name : String) :
    sanitizeSegment nfkd name = sanitizeSpecC4 nfkd name := by
  by_cases h : name = ""
  · subst h
    unfold sanitizeSegment sanitizeSpecC4
    rw [h0]
    rfl
  · have hb : (name == "") = false := by
      cases hname : name == "" with
      | false => rfl
      | true => exact absurd (eq_of_beq hname) h
    have hnfkd := hne name h
    have hdata := string_data_ne_nil (nfkd name) hnfkd
    have hpipe := segPipeline_ne_nil (nfkd name).data hdata
    have hbp : (segPipeline (nfkd name).data == []) = false := by
      cases hp : segPipeline (nfkd name).data == [] with
      | false => rfl
      | true => exact absurd (eq_of_beq hp) hpipe
    unfold sanitizeSegment sanitizeSpecC4
    rw [hb, hbp]

/-- Witness for C4: the refinement at the identity normalizer on a name
containing whitespace, a slash and an illegal character. -/
theorem c4_amended_witness :
    sanitizeSegment (fun s => s) "a b/c?" = sanitizeSpecC4 (fun s => s) "a b/c?" :=
  c4_amended (fun s => s) rfl (fun s h => h) "a b/c?"

/-! ## Claim C5 -/

/-- C5 counterexample: a document whose properties carry only
wof:placetype "country" — no id and no name — is NOT dropped by the
wof_create_folders.js parseRecord: it yields a record with the literal id
"undefined" and a null name, refuting "a document missing either id or name
yields no record". -/
theorem c5_counterexample :
    repoParseRecord [("wof:placetype", JVal.str "country")] =
      some { id := "undefined", name := none, placetype := "country",
             parent := "" } := by
  decide

/-- C5 amended: part_000's reader retains a canonical record exactly when
both the extracted id and the extracted (best) name are truthy; a document
missing either yields no record, and no error is raised (the extraction is a
total function).  The wof_create_folders.js parseRecord, by contrast, drops
a document only for an unrecognized placetype (see the counterexample). -/
theorem c5_amended (props : List (String × JVal)) :
    (part000Extract props).isSome =
      (jsTruthy (getPropVariants props p0IdKeys) &&
       jsTruthy (pickBestName props)) := by
  unfold part000Extract
  by_cases h : (jsTruthy (getPropVariants props p0IdKeys) &&
      jsTruthy (pickBestName props)) = true
  · simp [h]
  · simp only [Bool.not_eq_true] at h
    simp [h]

/-! ## Claim C6 -/

/-- C6 counterexample: two part_000 nodes, both regions (so no countries and
the fallback applies); node 1's parent id 999 does not resolve in the map,
yet the fallback does NOT return node 1 (its parent field is truthy),
refuting "fall back to returning the nodes with no resolvable parent in this
map" — the fallback actually selects the nodes whose parent field is falsy. -/
theorem c6_counterexample :
    (p0LastIdx nsC6 (JNum.int 999)).isSome = false ∧
    p0Countries nsC6 = [] ∧
    part000Roots nsC6 = [0] := by
  decide

/-- C6 amended: buildGraph's root set is exactly the map nodes whose
placetype is the top-level type "country", with no fallback of any kind;
part_000's main (which uses no allow-set/transition table) first takes the
country-typed map nodes and, only when there are none, falls back to the map
nodes whose PARENT FIELD IS FALSY (absent) — not to the nodes whose parent
fails to resolve in the map. -/
theorem c6_amended :
    (∀ (chain : String → Option (List String)) (recs : List Rec) (i : Nat),
        i ∈ buildGraphRoots chain recs ↔
          i ∈ mapValues recs ∧ rpt recs i = "country") ∧
    (∀ (ns : List P0Node) (i : Nat), p0Countries ns = [] →
        (i ∈ part000Roots ns ↔
          i ∈ p0MapValues ns ∧ p0ParentTruthy ns i = false)) := by
  constructor
  · exact mem_buildGraphRoots
  · intro ns i h
    unfold part000Roots
    rw [h]
    simp [List.mem_filter]

/-- Witness for C6: concrete instances of both root characterizations. -/
theorem c6_amended_witness :
    ((0 : Nat) ∈ buildGraphRoots chainC1 recsC1 ↔
      (0 : Nat) ∈ mapValues recsC1 ∧ rpt recsC1 0 = "country") ∧
    ((0 : Nat) ∈ part000Roots nsC6 ↔
      (0 : Nat) ∈ p0MapValues nsC6 ∧ p0ParentTruthy nsC6 0 = false) :=
  ⟨c6_amended.1 chainC1 recsC1 0, c6_amended.2 nsC6 0 (by decide)⟩

/-! ## Claim C7 -/

/-- C7 counterexample: part_000 does NOT stringify ids — it canonicalizes
them with Number().  Reading a parent document whose raw id is the STRING
"01" and a child document whose raw parent_id is the NUMBER 1, the reader
produces nodes with numeric ids 1 and 2, and part_000's buildTree attaches
the child to the parent (the numeric keys match) even though the String()
forms "01" and "1" differ — so the id values are not "canonicalized to a
string before being used to key or look up the node map". -/
theorem c7_counterexample :
    part000Extract propsC7p =
      some { id := JNum.int 1, parent := none,
             placetype := some (JVal.str "country"), name := JVal.str "P" } ∧
    part000Extract propsC7c =
      some { id := JNum.int 2, parent := some (JNum.int 1),
             placetype := none, name := JVal.str "C" } ∧
    p0Children nsC7 0 = [1] ∧
    jsToString (some (JVal.str "01")) ≠ jsToString (some (JVal.num 1)) := by
  decide

/-- C7 amended: id-like values are canonicalized CONSISTENTLY per variant:
the wof_create_folders.js / hybrid V3 parseRecord String()-ifies both id and
parent (so a numeric id n and the string form of n produce the same map
key), while part_000's reader canonicalizes both through Number() (so parent
lookups also succeed across numeric/string raw forms that denote the same
number, see the counterexample's successful numeric link). -/
theorem c7_amended :
    (∀ (props : List (String × JVal)) (r : RepoRec),
        repoParseRecord props = some r →
        r.id = jsToString (jlookup props "wof:id") ∧
        r.parent = jsToString (some (jsOrV (jlookup props "wof:parent_id")
          (JVal.str "")))) ∧
    (∀ n : Int, jsToString (some (JVal.num n)) =
        jsToString (some (JVal.str (toString n)))) ∧
    (∀ (v w : JVal) (k : JNum) (ns : List P0Node),
        jsToNumberV v = k → jsToNumberV w = k →
        p0LastIdx ns (jsToNumberV v) = p0LastIdx ns (jsToNumberV w)) := by
  refine ⟨?_, ?_, ?_⟩
  · intro props r h
    unfold repoParseRecord at h
    split at h
    · split at h
      · cases h
        exact ⟨rfl, rfl⟩
      · cases h
    · cases h
  · intro n
    rfl
  · intro v w k ns hv hw
    rw [hv, hw]

/-- The record the wof_create_folders.js parseRecord produces for the C7
witness document. -/
def repoRecC7w : RepoRec := ⟨"7", some (JVal.str "X"), "region", "1"⟩

/-- Witness for C7: a document with the numeric id 7 gets the record id "7",
the same key that a document carrying the string "7" would get. -/
theorem c7_amended_witness :
    (repoRecC7w.id = jsToString (jlookup propsC7w "wof:id") ∧
     repoRecC7w.parent = jsToString (some (jsOrV
       (jlookup propsC7w "wof:parent_id") (JVal.str "")))) ∧
    jsToString (some (JVal.num 7)) = jsToString (some (JVal.str "7")) ∧
    p0LastIdx nsC7 (jsToNumberV (JVal.str "01")) =
      p0LastIdx nsC7 (jsToNumberV (JVal.num 1)) :=
  ⟨c7_amended.1 propsC7w repoRecC7w (by decide),
   c7_amended.2.1 7,
   c7_amended.2.2 (JVal.str "01") (JVal.num 1) (JNum.int 1) nsC7
     (by decide) (by decide)⟩

/-! ## Claim C9 -/

/-- C9 counterexample: with an empty allow-set, a perfectly well-formed
country document is rejected, and the build then returns an empty root set —
no fatal precondition violation is raised anywhere; both functions return
ordinary values (the embedded functions are total and have no error channel,
exactly as the scripts throw nothing on this path). -/
theorem c9_counterexample :
    parseRecord001 [] (some [("wof:placetype", JVal.str "country"),
      ("wof:id", JVal.num 1), ("wof:name", JVal.str "X")]) = none ∧
    buildGraphRoots PLACETYPE_CHAIN [] = [] := by
  decide

/-- C9 amended: there is no build-start configuration validation: with an
empty allow-set every document is rejected by parseRecord (yielding the empty
record list, hence an empty tree), and with a transition table that has no
entry for a node's placetype that node gets no children; in both cases the
build continues silently — nothing is surfaced to the caller. -/
theorem c9_amended :
    (∀ doc, parseRecord001 [] doc = none) ∧
    (∀ (chain : String → Option (List String)) (recs : List Rec) (p : Nat),
        chain (rpt recs p) = none → childrenOf chain recs p = []) ∧
    buildGraphRoots PLACETYPE_CHAIN [] = [] := by
  refine ⟨?_, ?_, by decide⟩
  · intro doc
    match doc with
    | none => rfl
    | some props =>
      rcases h : jlookup props "wof:placetype" with _ | v
      · simp [parseRecord001, h]
      · cases v with
        | str pt => simp [parseRecord001, h]
        | num n => simp [parseRecord001, h]
        | jnull => simp [parseRecord001, h]
  · intro chain recs p h
    unfold childrenOf
    rw [List.filter_eq_nil_iff]
    intro j hj
    unfold linksTo permitted
    rw [h]
    simp

/-- Witness for C9: the concrete country document is rejected under the
empty allow-set, and under a table with no entries node 0 of the end-to-end
records has no children. -/
theorem c9_amended_witness :
    parseRecord001 [] (some [("wof:placetype", JVal.str "region")]) = none ∧
    childrenOf (fun _ => none) recsC1 0 = [] :=
  ⟨c9_amended.1 (some [("wof:placetype", JVal.str "region")]),
   c9_amended.2.1 (fun _ => none) recsC1 0 rfl⟩

/-! ## Claim C10 -/

lemma lastIdxAux_eq_some (recs : List Rec) (k : String) (j : Nat) :
    ∀ n, j < n → rid recs j = k → (∀ l, j < l → l < n → rid recs l ≠ k) →
      lastIdxAux recs k n = some j := by
  intro n
  induction n with
  | zero => intro h; omega
  | succ n ih =>
    intro hj hk hmax
    by_cases hn : (rid recs n == k) = true
    · have hnk : rid recs n = k := eq_of_beq hn
      by_cases hjn : j = n
      · subst hjn
        simp [lastIdxAux, hn]
      · have hlt : j < n := by omega
        exact absurd hnk (hmax n hlt (Nat.lt_succ_self n))
    · have hnne : ¬ rid recs n = k := by
        intro hh
        rw [hh, beq_self_eq_true] at hn
        exact hn rfl
      have hjn : j ≠ n := by
        intro hh
        rw [hh] at hk
        exact hnne hk
      have hlt : j < n := by omega
      simp only [Bool.not_eq_true] at hn
      simp only [lastIdxAux, hn, Bool.false_eq_true, if_false]
      exact ih hlt hk (fun l h1 h2 => hmax l h1 (Nat.lt_succ_of_lt h2))

/-- C10 counterexample: under buildGraph (hybrid V3) the duplicate-id
attachment is NOT unconditional: records [{id 1, country P}, {id 2,
locality A1, parent 1}, {id 2, locality A2, parent 1}] share the id 2 and
their shared parent resolves to map entry 0, but country→locality is not in
PLACETYPE_CHAIN, so the linking pass attaches NEITHER duplicate — the
parent's children sequence stays empty, refuting the unconditional "the
builder's linking pass attaches both record objects". -/
theorem c10_counterexample :
    rid recsC10x 1 = rid recsC10x 2 ∧ (1 : Nat) ≠ 2 ∧
    lastIdxOf recsC10x (rparent recsC10x 1) = some 0 ∧
    childrenOf PLACETYPE_CHAIN recsC10x 0 = [] := by
  decide

/-- C10 amended: when two distinct record objects share an id (different
from their shared parent id) and the parent id resolves in the map, the
buildTree linking pass (wof_create_folders.js and part_002) attaches BOTH
record objects to that parent's children sequence — and buildGraph does the
same provided both parent→child transitions are permitted — while the
id-to-node map retains only the last of the records with that id;
consequently the tree contains a node object (the earlier duplicate) that
the final map does not expose under its id. -/
theorem c10_duplicate_ids (chain : String → Option (List String))
    (recs : List Rec) (i j p : Nat)
    (hi : i < recs.length) (hj : j < recs.length) (hij : i ≠ j)
    (hid : rid recs i = rid recs j)
    (hpp : rparent recs i = rparent recs j)
    (hne : rid recs i ≠ rparent recs i)
    (hres : lastIdxOf recs (rparent recs i) = some p)
    (hlast : ∀ l, l < recs.length → rid recs l = rid recs i → l ≤ j) :
    i ∈ btChildren recs p ∧ j ∈ btChildren recs p ∧
    lastIdxOf recs (rid recs i) = some j ∧
    lastIdxOf recs (rid recs i) ≠ some i ∧
    (permitted chain recs p i = true → permitted chain recs p j = true →
      i ∈ childrenOf chain recs p ∧ j ∈ childrenOf chain recs p) := by
  have hbi : btLinksTo recs p i = true := by
    unfold btLinksTo
    rw [hres]
    exact beq_self_eq_true _
  have hbj : btLinksTo recs p j = true := by
    unfold btLinksTo
    rw [← hpp, hres]
    exact beq_self_eq_true _
  have hmapi : lastIdxOf recs (rid recs i) = some j := by
    unfold lastIdxOf
    exact lastIdxAux_eq_some recs (rid recs i) j recs.length hj hid.symm
      (fun l h1 h2 hl => by
        have := hlast l h2 hl
        omega)
  refine ⟨?_, ?_, hmapi, ?_, ?_⟩
  · simp [btChildren, List.mem_filter, List.mem_range, hi, hbi]
  · simp [btChildren, List.mem_filter, List.mem_range, hj, hbj]
  · rw [hmapi]
    intro h
    cases h
    exact hij rfl
  · intro hpi hpj
    constructor
    · rw [mem_childrenOf]
      refine ⟨hi, ?_⟩
      unfold linksTo
      rw [hres, hpi]
      simp
    · rw [mem_childrenOf]
      refine ⟨hj, ?_⟩
      unfold linksTo
      rw [← hpp, hres, hpj]
      simp

/-- Witness for C10: on records [{id 1, country P}, {id 2, region A1,
parent 1}, {id 2, region A2, parent 1}] both duplicates are attached (in
buildTree and, the transitions being permitted, in buildGraph), and the map
exposes id 2 as the last record (index 2), not the attached index 1. -/
theorem c10_witness :
    (1 : Nat) ∈ btChildren recsC10 0 ∧ (2 : Nat) ∈ btChildren recsC10 0 ∧
    lastIdxOf recsC10 (rid recsC10 1) = some 2 ∧
    lastIdxOf recsC10 (rid recsC10 1) ≠ some 1 ∧
    ((1 : Nat) ∈ childrenOf PLACETYPE_CHAIN recsC10 0 ∧
     (2 : Nat) ∈ childrenOf PLACETYPE_CHAIN recsC10 0) :=
  have h := c10_duplicate_ids PLACETYPE_CHAIN recsC10 1 2 0 (by decide)
    (by decide) (by decide) (by decide) (by decide) (by decide) (by decide)
    (by decide)
  ⟨h.1, h.2.1, h.2.2.1, h.2.2.2.1, h.2.2.2.2 (by decide) (by decide)⟩

end Wof
